import Mathlib

/-!
Verification of the CFG generator (src/cfg.py) against its specification.

The Python class `CFG` is shallowly embedded below.  Python sets of strings
become `Finset String`, the production list becomes
`List (String × List String)`, and every operation that can raise becomes a
function into `Except`.  The random draws made by `np.random.choice` are
modelled by an explicit oracle `o : Nat → Nat × Nat` giving, for each loop
iteration, the raw draw for the production index and the raw draw for the
rhs-symbol index; the code reduces each raw draw modulo the relevant list
length, which realises exactly the set of outcomes `np.random.choice` can
produce on a nonempty list (and an empty list is an error, as in numpy).
-/

deriving instance DecidableEq for Except

/-- Python's `sep.join(iterable)`: concatenation with `sep` between
consecutive elements. -/
def pyJoin (sep : String) : List String → String
  | [] => ""
  | [x] => x
  | x :: xs => x ++ sep ++ pyJoin sep xs

/-- Python's `" ".join(s)` for a string `s`: iterating over a Python string
yields its characters one by one, so this joins the characters of `s` with
single spaces.  This is what line 43 of cfg.py applies to the sampled
symbol. -/
def joinChars (s : String) : String :=
  pyJoin " " (s.data.map (fun c => String.mk [c]))

/-- Helper for whitespace splitting: emit the accumulated (reversed) token,
if any. -/
def flushTok (cur : List Char) : List (List Char) :=
  if cur.isEmpty then [] else [cur.reverse]

/-- Whitespace tokenizer over a character list, accumulating the current
token in reverse: runs of whitespace separate tokens and produce no empty
tokens, as Python's `str.split()` with no argument does. -/
def tokensAux : List Char → List Char → List (List Char)
  | [], cur => flushTok cur
  | c :: rest, cur =>
    if c.isWhitespace then flushTok cur ++ tokensAux rest []
    else tokensAux rest (c :: cur)

/-- Python's `s.split()`: split on whitespace runs, dropping empty tokens. -/
def pySplit (s : String) : List String :=
  (tokensAux s.data []).map (fun l => String.mk l)

/-- The Python class `CFG`: two symbol sets and an ordered production list
(fields as assigned in `CFG.__init__`, lines 6-10 of cfg.py). -/
structure CFG where
  terminal_symbols : Finset String
  nonterminal_symbols : Finset String
  productions : List (String × List String)
  deriving DecidableEq

/-- `self.all_symbols = self.terminal_symbols.union(self.nonterminal_symbols)`
(line 10 of cfg.py); derived from the two sets. -/
def CFG.all_symbols (g : CFG) : Finset String :=
  g.terminal_symbols ∪ g.nonterminal_symbols

/-- The three `AssertionError`s `CFG.validate` can raise, named as in the
specification. -/
inductive ConstructErr where
  | disjointness
  | invalidLhs
  | invalidRhsSymbol
  deriving DecidableEq

/-- The per-production checks of `CFG.validate` (lines 17-20 of cfg.py):
scan the productions in order; for each, first check the lhs is a
nonterminal, then check every rhs symbol is a known symbol. -/
def validateProductions (nonterminals allSyms : Finset String) :
    List (String × List String) → Except ConstructErr Unit
  | [] => Except.ok ()
  | p :: rest =>
    if p.1 ∈ nonterminals then
      if p.2.all (fun s => decide (s ∈ allSyms)) then
        validateProductions nonterminals allSyms rest
      else Except.error ConstructErr.invalidRhsSymbol
    else Except.error ConstructErr.invalidLhs

/-- `CFG.validate` (lines 13-20 of cfg.py): first assert the intersection of
the two symbol sets is empty, then check each production in order. -/
def CFG.validate (g : CFG) : Except ConstructErr Unit :=
  if (g.terminal_symbols ∩ g.nonterminal_symbols).card = 0 then
    validateProductions g.nonterminal_symbols g.all_symbols g.productions
  else Except.error ConstructErr.disjointness

/-- `CFG.__init__` (lines 6-11 of cfg.py): store the fields, then run
`validate`; the object is only obtained when validation passes. -/
def construct (t n : Finset String) (ps : List (String × List String)) :
    Except ConstructErr CFG :=
  match (CFG.mk t n ps).validate with
  | Except.ok _ => Except.ok (CFG.mk t n ps)
  | Except.error e => Except.error e

/-- A single production is well formed: its lhs is a nonterminal and every
rhs symbol is a known symbol. -/
def ProdOk (nonterminals allSyms : Finset String) (p : String × List String) : Prop :=
  p.1 ∈ nonterminals ∧ ∀ s ∈ p.2, s ∈ allSyms

instance (n a : Finset String) (p : String × List String) :
    Decidable (ProdOk n a p) := by
  unfold ProdOk; infer_instance

/-- The `AssertionError` of `CFG.get_productions_for_symbol`, named as in
the specification. -/
inductive LookupErr where
  | unknownSymbol
  deriving DecidableEq

/-- The list comprehension of line 24 of cfg.py:
`[production for production in self.productions if production[0] == symbol]`,
a stable filter over the stored productions. -/
def CFG.prodsFor (g : CFG) (symbol : String) : List (String × List String) :=
  g.productions.filter (fun production => production.1 == symbol)

/-- `CFG.get_productions_for_symbol` (lines 22-24 of cfg.py): assert the
symbol is known, then return the productions whose lhs equals it. -/
def CFG.get_productions_for_symbol (g : CFG) (symbol : String) :
    Except LookupErr (List (String × List String)) :=
  if symbol ∈ g.all_symbols then Except.ok (g.prodsFor symbol)
  else Except.error LookupErr.unknownSymbol

/-- Everything `CFG.generate` can raise: the three precondition
`AssertionError`s; the lookup `AssertionError` propagated from
`get_productions_for_symbol`; numpy's `ValueError` when
`np.random.choice` is given an empty list (an empty production rhs); and
the `NameError` from reading `sampled_output` before assignment, which is
what the `"weighted"` strategy does since only the `"uniform"` branch ever
assigns it (lines 38-43 of cfg.py). -/
inductive GenErr where
  | notNonterminal
  | unsupportedStrategy
  | invalidLength
  | unknownSymbol
  | emptyChoice
  | nameErrorUnbound
  deriving DecidableEq

/-- Line 39-40 of cfg.py:
`production_idx = np.random.choice(list(range(len(productions))))` followed
by `production = productions[production_idx]`.  The raw oracle draw `r` is
reduced modulo the list length, which realises exactly the indices
`np.random.choice` can return on a nonempty list. -/
def pickProd (prods : List (String × List String)) (r : Nat) :
    String × List String :=
  prods.getD (r % prods.length) ("", [])

/-- Line 42 of cfg.py: `sampled_output = np.random.choice(possible_outputs)`
on a nonempty rhs, again with the raw draw reduced modulo the length. -/
def pickSym (possible : List String) (r : Nat) : String :=
  possible.getD (r % possible.length) ""

/-- The symbol sampled in one loop iteration of `CFG.generate` under the
`"uniform"` strategy: pick a production, then pick one symbol from its
rhs. -/
def sampleStep (prods : List (String × List String)) (r : Nat × Nat) : String :=
  pickSym (pickProd prods r.1).2 r.2

/-- The `for _ in range(max_length - 1)` loop of `CFG.generate`
(lines 34-46 of cfg.py).  `fuel` is the number of remaining iterations,
`step` the index of the current iteration (feeding the random oracle),
`acc` the accumulated `generated_string`, and `cur` the `current_symbol`.
Each iteration looks up the productions for `cur`; stops returning `acc`
when there are none; under `"uniform"` samples one production and then one
symbol from its rhs (an empty rhs raising `GenErr.emptyChoice`, as
`np.random.choice` of an empty list does); appends a space plus the
sampled symbol's characters joined by spaces; and stops after appending
when the sampled symbol is terminal.  Any other strategy reaches the
unbound `sampled_output` and raises.  The leading membership test is the
assert of `get_productions_for_symbol` (§4.2), whose `AssertionError`
propagates out of `generate`; on success the looked-up list is
`g.prodsFor cur`, written inline here. -/
def genLoop (g : CFG) (strat : String) (o : Nat → Nat × Nat) :
    Nat → Nat → String → String → Except GenErr String
  | 0, _, acc, _ => Except.ok acc
  | fuel + 1, step, acc, cur =>
    if cur ∉ g.all_symbols then Except.error GenErr.unknownSymbol
    else if (g.prodsFor cur).length = 0 then Except.ok acc
    else if strat = "uniform" then
      if (pickProd (g.prodsFor cur) (o step).1).2.length = 0 then
        Except.error GenErr.emptyChoice
      else if sampleStep (g.prodsFor cur) (o step) ∈ g.terminal_symbols then
        Except.ok (acc ++ " " ++ joinChars (sampleStep (g.prodsFor cur) (o step)))
      else
        genLoop g strat o fuel (step + 1)
          (acc ++ " " ++ joinChars (sampleStep (g.prodsFor cur) (o step)))
          (sampleStep (g.prodsFor cur) (o step))
    else Except.error GenErr.nameErrorUnbound

/-- `CFG.generate` (lines 26-47 of cfg.py): assert the start symbol is a
nonterminal, the strategy is `"uniform"` or `"weighted"`, and the length
bound is positive; return the start symbol alone when `max_length == 1`;
otherwise run the bounded rewrite loop starting from the start symbol.
`max_length` is an `Int` since Python accepts any integer there.  The
unused `sampling_params` dict of the source is omitted: no executed path
reads it. -/
def CFG.generate (g : CFG) (symbol : String) (max_length : Int)
    (sampling_strategy : String) (o : Nat → Nat × Nat) : Except GenErr String :=
  if symbol ∉ g.nonterminal_symbols then Except.error GenErr.notNonterminal
  else if ¬(sampling_strategy = "uniform" ∨ sampling_strategy = "weighted") then
    Except.error GenErr.unsupportedStrategy
  else if ¬(0 < max_length) then Except.error GenErr.invalidLength
  else if max_length = 1 then Except.ok symbol
  else genLoop g sampling_strategy o (max_length - 1).toNat 0 symbol symbol

/-- The same loop as `genLoop`, but recording the sequence of sampled
("visited") symbols instead of rendering them into the output string.
Modelled from the spec: the spec speaks of "every visited symbol ... in
visitation order (start symbol first)"; this function makes that visit
list explicit so the rendering of `generate` can be compared with it. -/
def genVisitedLoop (g : CFG) (strat : String) (o : Nat → Nat × Nat) :
    Nat → Nat → String → Except GenErr (List String)
  | 0, _, _ => Except.ok []
  | fuel + 1, step, cur =>
    if cur ∉ g.all_symbols then Except.error GenErr.unknownSymbol
    else if (g.prodsFor cur).length = 0 then Except.ok []
    else if strat = "uniform" then
      if (pickProd (g.prodsFor cur) (o step).1).2.length = 0 then
        Except.error GenErr.emptyChoice
      else if sampleStep (g.prodsFor cur) (o step) ∈ g.terminal_symbols then
        Except.ok [sampleStep (g.prodsFor cur) (o step)]
      else
        (genVisitedLoop g strat o fuel (step + 1)
            (sampleStep (g.prodsFor cur) (o step))).map
          (fun vs => sampleStep (g.prodsFor cur) (o step) :: vs)
    else Except.error GenErr.nameErrorUnbound

/-- The visited symbols of a `generate` call, after the start symbol:
same preconditions and same walk as `generate`, recording the sampled
symbols in visitation order. -/
def CFG.generateVisited (g : CFG) (symbol : String) (max_length : Int)
    (sampling_strategy : String) (o : Nat → Nat × Nat) :
    Except GenErr (List String) :=
  if symbol ∉ g.nonterminal_symbols then Except.error GenErr.notNonterminal
  else if ¬(sampling_strategy = "uniform" ∨ sampling_strategy = "weighted") then
    Except.error GenErr.unsupportedStrategy
  else if ¬(0 < max_length) then Except.error GenErr.invalidLength
  else if max_length = 1 then Except.ok []
  else genVisitedLoop g sampling_strategy o (max_length - 1).toNat 0 symbol

/-- How `generate` renders a walk: start from the start symbol's text and,
for each visited symbol in order, append a space and that symbol's
characters joined by single spaces (the `" " + " ".join(sampled_output)`
of line 43 of cfg.py). -/
def renderWalk (start : String) (vs : List String) : String :=
  vs.foldl (fun acc s => acc ++ " " ++ joinChars s) start

/-- `CFG.__eq__` (lines 55-56 of cfg.py): componentwise Python equality of
the two sets (extensional) and the production list (elementwise, order
significant). -/
def CFG.pyEq (g h : CFG) : Bool :=
  decide (g.terminal_symbols = h.terminal_symbols) &&
  decide (g.nonterminal_symbols = h.nonterminal_symbols) &&
  decide (g.productions = h.productions)

/-- Python's `TypeError: unhashable type`. -/
inductive PyHashErr where
  | unhashableType
  deriving DecidableEq

/-- Python `hash` of a `set` object: sets are mutable and define no
`__hash__`, so `hash` raises `TypeError`. -/
def pyHashSet (s : Finset String) : Except PyHashErr Int :=
  Except.error PyHashErr.unhashableType

/-- Python `hash` of a `list` object: lists are unhashable, `hash` raises
`TypeError`. -/
def pyHashList (l : List (String × List String)) : Except PyHashErr Int :=
  Except.error PyHashErr.unhashableType

/-- `CFG.__hash__` (lines 58-59 of cfg.py):
`hash((terminal_symbols, nonterminal_symbols, productions))`.  CPython
hashes the tuple's components left to right and mixes the results; the
mixing step (modelled here by an arbitrary stand-in, since any component
failure aborts first) is never reached because every component is an
unhashable `set` or `list`. -/
def CFG.pyHash (g : CFG) : Except PyHashErr Int := do
  let h1 ← pyHashSet g.terminal_symbols
  let h2 ← pyHashSet g.nonterminal_symbols
  let h3 ← pyHashList g.productions
  return h1 + h2 + h3

/-- `CFG.is_terminal` (lines 61-62 of cfg.py). -/
def CFG.is_terminal (g : CFG) (symbol : String) : Bool :=
  decide (symbol ∈ g.terminal_symbols)

/-- `CFG.is_nonterminal` (lines 64-65 of cfg.py). -/
def CFG.is_nonterminal (g : CFG) (symbol : String) : Bool :=
  decide (symbol ∈ g.nonterminal_symbols)

/-- Python `==` between a `str` and a `list` of `str`: values of different
types compare unequal (no exception), so this is constantly `false`. -/
def pyStrEqList (s : String) (l : List String) : Bool := false

/-- `CFG.is_valid_production` (lines 67-68 of cfg.py):
`production in self.productions` for a `(str, str)` pair, where Python
list membership tests `==` against each stored `(lhs, rhs_list)` entry;
tuple equality compares componentwise, the second components being a
`str` against a `list`. -/
def CFG.is_valid_production (g : CFG) (production : String × String) : Bool :=
  g.productions.any (fun q => production.1 == q.1 && pyStrEqList production.2 q.2)

/-- `CFG.is_valid_string` (lines 70-79 of cfg.py): split the input on
whitespace; every token must be a known symbol, and every adjacent token
pair must satisfy `is_valid_production`. -/
def CFG.is_valid_string (g : CFG) (s : String) : Bool :=
  (pySplit s).all (fun t => decide (t ∈ g.all_symbols)) &&
  (List.range ((pySplit s).length - 1)).all
    (fun i => g.is_valid_production
      ((pySplit s).getD i "", (pySplit s).getD (i + 1) ""))

/-- The spec's example grammar: terminals `{"a"}`, nonterminals `{"S"}`,
productions `[("S", ["a"])]`. -/
def cfgSa : CFG := CFG.mk {"a"} {"S"} [("S", ["a"])]

/-- The spec's second example grammar: no terminals, nonterminals `{"S"}`,
no productions. -/
def cfgEmpty : CFG := CFG.mk ∅ {"S"} []

/-- A valid grammar with a two-character terminal symbol, exercising the
character-splitting behaviour of `" ".join`. -/
def cfgBB : CFG := CFG.mk {"bb"} {"S"} [("S", ["bb"])]

lemma tokensAux_append_ws (c : Char) (hc : c.isWhitespace = true) :
    ∀ (xs : List Char) (ys cur : List Char),
      tokensAux (xs ++ c :: ys) cur = tokensAux xs cur ++ tokensAux ys [] := by
  intro xs
  induction xs with
  | nil =>
    intro ys cur
    simp only [List.nil_append, tokensAux, hc, if_pos]
  | cons d xs ih =>
    intro ys cur
    by_cases hd : d.isWhitespace
    · simp only [List.cons_append, tokensAux, hd, if_pos, List.append_eq, ih,
        List.append_assoc]
    · simp only [List.cons_append, tokensAux, hd, if_neg, List.append_eq, ih,
        Bool.false_eq_true, ite_false]

lemma pySplit_append_space (a b : String) :
    pySplit (a ++ " " ++ b) = pySplit a ++ pySplit b := by
  unfold pySplit
  have hdata : (a ++ " " ++ b).data = a.data ++ ' ' :: b.data := by
    simp [String.data_append]
  rw [hdata, tokensAux_append_ws ' ' (by decide), List.map_append]

lemma pySplit_single_le_one (s : String) (h : s.length = 1) :
    (pySplit s).length ≤ 1 := by
  obtain ⟨c, hc⟩ := List.length_eq_one.mp h
  unfold pySplit
  rw [hc]
  by_cases hw : c.isWhitespace
  · simp [tokensAux, flushTok, hw]
  · simp [tokensAux, flushTok, hw]

lemma joinChars_single (s : String) (h : s.length = 1) : joinChars s = s := by
  obtain ⟨c, hc⟩ := List.length_eq_one.mp h
  have h1 : joinChars s = String.mk [c] := by
    unfold joinChars
    rw [hc]
    rfl
  rw [h1]
  exact (String.ext (by rw [hc] : s.data = (String.mk [c]).data)).symm

lemma pySplit_step_le (acc s : String) (h : s.length = 1) :
    (pySplit (acc ++ " " ++ joinChars s)).length ≤ (pySplit acc).length + 1 := by
  rw [joinChars_single s h, pySplit_append_space, List.length_append]
  exact Nat.add_le_add_left (pySplit_single_le_one s h) _

lemma validateProductions_ok_iff (n a : Finset String)
    (ps : List (String × List String)) :
    validateProductions n a ps = Except.ok () ↔ ∀ p ∈ ps, ProdOk n a p := by
  induction ps with
  | nil => simp [validateProductions]
  | cons p rest ih =>
    unfold validateProductions
    by_cases h1 : p.1 ∈ n
    · by_cases h2 : p.2.all (fun s => decide (s ∈ a))
      · simp only [if_pos h1, if_pos h2, ih]
        constructor
        · intro hrest q hq
          rcases List.mem_cons.mp hq with hq | hq
          · subst hq
            exact ⟨h1, fun s hs => by simpa using List.all_eq_true.mp h2 s hs⟩
          · exact hrest q hq
        · intro hall q hq; exact hall q (List.mem_cons_of_mem _ hq)
      · simp only [if_pos h1, if_neg h2]
        constructor
        · intro he; exact absurd he (by simp)
        · intro hall
          exact absurd (List.all_eq_true.mpr
            (fun s hs => by simpa using (hall p (List.mem_cons_self _ _)).2 s hs)) h2
    · simp only [if_neg h1]
      constructor
      · intro he; exact absurd he (by simp)
      · intro hall; exact absurd (hall p (List.mem_cons_self _ _)).1 h1

lemma validateProductions_errLhs_iff (n a : Finset String)
    (ps : List (String × List String)) :
    validateProductions n a ps = Except.error ConstructErr.invalidLhs ↔
      ∃ l1 p l2, ps = l1 ++ p :: l2 ∧ (∀ q ∈ l1, ProdOk n a q) ∧ p.1 ∉ n := by
  induction ps with
  | nil =>
    simp only [validateProductions]
    constructor
    · intro he; exact absurd he (by simp)
    · rintro ⟨l1, p, l2, habs, -, -⟩; exact absurd habs (by simp)
  | cons p rest ih =>
    unfold validateProductions
    by_cases h1 : p.1 ∈ n
    · by_cases h2 : p.2.all (fun s => decide (s ∈ a))
      · simp only [if_pos h1, if_pos h2, ih]
        constructor
        · rintro ⟨l1, q, l2, hrest, hpre, hq⟩
          refine ⟨p :: l1, q, l2, by simp [hrest], ?_, hq⟩
          intro r hr
          rcases List.mem_cons.mp hr with hr | hr
          · subst hr
            exact ⟨h1, fun s hs => by simpa using List.all_eq_true.mp h2 s hs⟩
          · exact hpre r hr
        · rintro ⟨l1, q, l2, hsplit, hpre, hq⟩
          cases l1 with
          | nil =>
            simp only [List.nil_append, List.cons.injEq] at hsplit
            exact absurd (hsplit.1 ▸ h1) (hsplit.1 ▸ hq)
          | cons r l1 =>
            simp only [List.cons_append, List.cons.injEq] at hsplit
            exact ⟨l1, q, l2, hsplit.2, fun x hx =>
              hpre x (List.mem_cons_of_mem _ hx), hq⟩
      · simp only [if_pos h1, if_neg h2]
        constructor
        · intro he; exact absurd he (by simp)
        · rintro ⟨l1, q, l2, hsplit, hpre, hq⟩
          cases l1 with
          | nil =>
            simp only [List.nil_append, List.cons.injEq] at hsplit
            exact absurd (hsplit.1 ▸ h1) (hsplit.1 ▸ hq)
          | cons r l1 =>
            simp only [List.cons_append, List.cons.injEq] at hsplit
            have hp : ProdOk n a p := hsplit.1 ▸ hpre r (List.mem_cons_self _ _)
            exact absurd (List.all_eq_true.mpr
              (fun s hs => by simpa using hp.2 s hs)) h2
    · simp only [if_neg h1]
      constructor
      · intro _; exact ⟨[], p, rest, by simp, by simp, h1⟩
      · intro _; trivial

lemma validateProductions_errRhs_iff (n a : Finset String)
    (ps : List (String × List String)) :
    validateProductions n a ps = Except.error ConstructErr.invalidRhsSymbol ↔
      ∃ l1 p l2, ps = l1 ++ p :: l2 ∧ (∀ q ∈ l1, ProdOk n a q) ∧
        p.1 ∈ n ∧ ∃ s ∈ p.2, s ∉ a := by
  induction ps with
  | nil =>
    simp only [validateProductions]
    constructor
    · intro he; exact absurd he (by simp)
    · rintro ⟨l1, p, l2, habs, -, -⟩; exact absurd habs (by simp)
  | cons p rest ih =>
    unfold validateProductions
    by_cases h1 : p.1 ∈ n
    · by_cases h2 : p.2.all (fun s => decide (s ∈ a))
      · simp only [if_pos h1, if_pos h2, ih]
        constructor
        · rintro ⟨l1, q, l2, hrest, hpre, hq⟩
          refine ⟨p :: l1, q, l2, by simp [hrest], ?_, hq⟩
          intro r hr
          rcases List.mem_cons.mp hr with hr | hr
          · subst hr
            exact ⟨h1, fun s hs => by simpa using List.all_eq_true.mp h2 s hs⟩
          · exact hpre r hr
        · rintro ⟨l1, q, l2, hsplit, hpre, hq1, s, hs, hsa⟩
          cases l1 with
          | nil =>
            simp only [List.nil_append, List.cons.injEq] at hsplit
            have : p.2.all (fun s => decide (s ∈ a)) := h2
            rw [hsplit.1] at this
            exact absurd (by simpa using List.all_eq_true.mp this s hs) hsa
          | cons r l1 =>
            simp only [List.cons_append, List.cons.injEq] at hsplit
            exact ⟨l1, q, l2, hsplit.2, fun x hx =>
              hpre x (List.mem_cons_of_mem _ hx), hq1, s, hs, hsa⟩
      · simp only [if_pos h1, if_neg h2]
        constructor
        · intro _
          refine ⟨[], p, rest, by simp, by simp, h1, ?_⟩
          by_contra hno
          push_neg at hno
          exact h2 (List.all_eq_true.mpr (fun s hs => by simpa using hno s hs))
        · intro _; trivial
    · simp only [if_neg h1]
      constructor
      · intro he; exact absurd he (by simp)
      · rintro ⟨l1, q, l2, hsplit, hpre, hq1, hbad⟩
        cases l1 with
        | nil =>
          simp only [List.nil_append, List.cons.injEq] at hsplit
          exact absurd (hsplit.1 ▸ hq1) h1
        | cons r l1 =>
          simp only [List.cons_append, List.cons.injEq] at hsplit
          exact absurd (hsplit.1 ▸ hpre r (List.mem_cons_self _ _)).1 h1

lemma getD_mem_of_lt {α : Type _} (l : List α) (n : Nat) (d : α)
    (h : n < l.length) : l.getD n d ∈ l := by
  rw [List.getD_eq_getElem?_getD, List.getElem?_eq_getElem h, Option.getD_some]
  exact List.getElem_mem h

lemma validate_ok_iff (g : CFG) :
    g.validate = Except.ok () ↔
      g.terminal_symbols ∩ g.nonterminal_symbols = ∅ ∧
      ∀ p ∈ g.productions, ProdOk g.nonterminal_symbols g.all_symbols p := by
  unfold CFG.validate
  by_cases h : (g.terminal_symbols ∩ g.nonterminal_symbols).card = 0
  · rw [if_pos h, validateProductions_ok_iff]
    simp [Finset.card_eq_zero.mp h]
  · rw [if_neg h]
    constructor
    · intro he; exact absurd he (by simp)
    · rintro ⟨hd, -⟩; exact absurd (by rw [hd]; simp) h


lemma genLoop_succ (g : CFG) (strat : String) (o : Nat → Nat × Nat)
    (fuel step : Nat) (acc cur : String) :
    genLoop g strat o (fuel + 1) step acc cur =
      if cur ∉ g.all_symbols then Except.error GenErr.unknownSymbol
      else if (g.prodsFor cur).length = 0 then Except.ok acc
      else if strat = "uniform" then
        if (pickProd (g.prodsFor cur) (o step).1).2.length = 0 then
          Except.error GenErr.emptyChoice
        else if sampleStep (g.prodsFor cur) (o step) ∈ g.terminal_symbols then
          Except.ok (acc ++ " " ++ joinChars (sampleStep (g.prodsFor cur) (o step)))
        else
          genLoop g strat o fuel (step + 1)
            (acc ++ " " ++ joinChars (sampleStep (g.prodsFor cur) (o step)))
            (sampleStep (g.prodsFor cur) (o step))
      else Except.error GenErr.nameErrorUnbound := rfl

lemma genVisitedLoop_succ (g : CFG) (strat : String) (o : Nat → Nat × Nat)
    (fuel step : Nat) (cur : String) :
    genVisitedLoop g strat o (fuel + 1) step cur =
      if cur ∉ g.all_symbols then Except.error GenErr.unknownSymbol
      else if (g.prodsFor cur).length = 0 then Except.ok []
      else if strat = "uniform" then
        if (pickProd (g.prodsFor cur) (o step).1).2.length = 0 then
          Except.error GenErr.emptyChoice
        else if sampleStep (g.prodsFor cur) (o step) ∈ g.terminal_symbols then
          Except.ok [sampleStep (g.prodsFor cur) (o step)]
        else
          (genVisitedLoop g strat o fuel (step + 1)
              (sampleStep (g.prodsFor cur) (o step))).map
            (fun vs => sampleStep (g.prodsFor cur) (o step) :: vs)
      else Except.error GenErr.nameErrorUnbound := rfl

lemma genLoop_ok (g : CFG) (hval : g.validate = Except.ok ())
    (hne : ∀ p ∈ g.productions, p.2 ≠ []) (o : Nat → Nat × Nat) :
    ∀ (fuel step : Nat) (acc cur : String), cur ∈ g.all_symbols →
      ∃ out, genLoop g "uniform" o fuel step acc cur = Except.ok out := by
  intro fuel
  induction fuel with
  | zero => intro step acc cur _; exact ⟨acc, rfl⟩
  | succ fuel ih =>
    intro step acc cur hcur
    rw [genLoop_succ, if_neg (by simp [hcur])]
    by_cases hlen : (g.prodsFor cur).length = 0
    · rw [if_pos hlen]; exact ⟨acc, rfl⟩
    · rw [if_neg hlen, if_pos rfl]
      have hmem1 : pickProd (g.prodsFor cur) (o step).1 ∈ g.prodsFor cur := by
        unfold pickProd
        exact getD_mem_of_lt _ _ _ (Nat.mod_lt _ (Nat.pos_of_ne_zero hlen))
      have hmemg : pickProd (g.prodsFor cur) (o step).1 ∈ g.productions :=
        (List.mem_filter.mp hmem1).1
      have hrhs_len : (pickProd (g.prodsFor cur) (o step).1).2.length ≠ 0 := by
        intro h0
        exact hne _ hmemg (List.length_eq_zero.mp h0)
      rw [if_neg hrhs_len]
      have hsamp_mem : sampleStep (g.prodsFor cur) (o step) ∈
          (pickProd (g.prodsFor cur) (o step).1).2 := by
        unfold sampleStep pickSym
        exact getD_mem_of_lt _ _ _ (Nat.mod_lt _ (Nat.pos_of_ne_zero hrhs_len))
      have hsamp_all : sampleStep (g.prodsFor cur) (o step) ∈ g.all_symbols :=
        (((validate_ok_iff g).mp hval).2 _ hmemg).2 _ hsamp_mem
      by_cases hterm : sampleStep (g.prodsFor cur) (o step) ∈ g.terminal_symbols
      · rw [if_pos hterm]; exact ⟨_, rfl⟩
      · rw [if_neg hterm]; exact ih (step + 1) _ _ hsamp_all

lemma genLoop_tokens (g : CFG) (hval : g.validate = Except.ok ())
    (hchar : ∀ s ∈ g.all_symbols, s.length = 1) (strat : String)
    (o : Nat → Nat × Nat) :
    ∀ (fuel step : Nat) (acc cur out : String),
      genLoop g strat o fuel step acc cur = Except.ok out →
      (pySplit out).length ≤ (pySplit acc).length + fuel := by
  intro fuel
  induction fuel with
  | zero =>
    intro step acc cur out h
    unfold genLoop at h
    injection h with h
    exact h ▸ Nat.le_refl _
  | succ fuel ih =>
    intro step acc cur out h
    rw [genLoop_succ] at h
    by_cases hcur : cur ∈ g.all_symbols
    · rw [if_neg (by simp [hcur])] at h
      by_cases hlen : (g.prodsFor cur).length = 0
      · rw [if_pos hlen] at h
        injection h with h
        exact h ▸ Nat.le_add_right _ _
      · rw [if_neg hlen] at h
        by_cases hstrat : strat = "uniform"
        · rw [if_pos hstrat] at h
          by_cases hrhs : (pickProd (g.prodsFor cur) (o step).1).2.length = 0
          · rw [if_pos hrhs] at h; exact absurd h (by simp)
          · rw [if_neg hrhs] at h
            have hmem1 : pickProd (g.prodsFor cur) (o step).1 ∈ g.prodsFor cur := by
              unfold pickProd
              exact getD_mem_of_lt _ _ _ (Nat.mod_lt _ (Nat.pos_of_ne_zero hlen))
            have hmemg : pickProd (g.prodsFor cur) (o step).1 ∈ g.productions :=
              (List.mem_filter.mp hmem1).1
            have hsamp_mem : sampleStep (g.prodsFor cur) (o step) ∈
                (pickProd (g.prodsFor cur) (o step).1).2 := by
              unfold sampleStep pickSym
              exact getD_mem_of_lt _ _ _ (Nat.mod_lt _ (Nat.pos_of_ne_zero hrhs))
            have hsamp_all : sampleStep (g.prodsFor cur) (o step) ∈ g.all_symbols :=
              (((validate_ok_iff g).mp hval).2 _ hmemg).2 _ hsamp_mem
            have hstep := pySplit_step_le acc (sampleStep (g.prodsFor cur) (o step))
              (hchar _ hsamp_all)
            by_cases hterm : sampleStep (g.prodsFor cur) (o step) ∈ g.terminal_symbols
            · rw [if_pos hterm] at h
              injection h with h
              rw [← h]
              omega
            · rw [if_neg hterm] at h
              have := ih (step + 1) _ _ _ h
              omega
        · rw [if_neg hstrat] at h; exact absurd h (by simp)
    · rw [if_pos hcur] at h; exact absurd h (by simp)

lemma genLoop_eq_visited (g : CFG) (strat : String) (o : Nat → Nat × Nat) :
    ∀ (fuel step : Nat) (acc cur : String),
      genLoop g strat o fuel step acc cur =
        (genVisitedLoop g strat o fuel step cur).map (renderWalk acc) := by
  intro fuel
  induction fuel with
  | zero => intro step acc cur; rfl
  | succ fuel ih =>
    intro step acc cur
    rw [genLoop_succ, genVisitedLoop_succ]
    by_cases hcur : cur ∈ g.all_symbols
    · rw [if_neg (not_not_intro hcur), if_neg (not_not_intro hcur)]
      by_cases hlen : (g.prodsFor cur).length = 0
      · rw [if_pos hlen, if_pos hlen]; rfl
      · rw [if_neg hlen, if_neg hlen]
        by_cases hstrat : strat = "uniform"
        · rw [if_pos hstrat, if_pos hstrat]
          by_cases hrhs : (pickProd (g.prodsFor cur) (o step).1).2.length = 0
          · rw [if_pos hrhs, if_pos hrhs]; rfl
          · rw [if_neg hrhs, if_neg hrhs]
            by_cases hterm : sampleStep (g.prodsFor cur) (o step) ∈ g.terminal_symbols
            · rw [if_pos hterm, if_pos hterm]; rfl
            · rw [if_neg hterm, if_neg hterm, ih]
              cases genVisitedLoop g strat o fuel (step + 1)
                (sampleStep (g.prodsFor cur) (o step)) <;> rfl
        · rw [if_neg hstrat, if_neg hstrat]; rfl
    · rw [if_pos hcur, if_pos hcur]; rfl

lemma validateProductions_ne_disjointness (n a : Finset String)
    (ps : List (String × List String)) :
    validateProductions n a ps ≠ Except.error ConstructErr.disjointness := by
  induction ps with
  | nil => simp [validateProductions]
  | cons p rest ih =>
    unfold validateProductions
    by_cases h1 : p.1 ∈ n
    · by_cases h2 : p.2.all (fun s => decide (s ∈ a))
      · simpa [h1, h2] using ih
      · simp [h1, h2]
    · simp [h1]

lemma validate_mk (t n : Finset String) (ps : List (String × List String)) :
    (CFG.mk t n ps).validate =
      if (t ∩ n).card = 0 then validateProductions n (t ∪ n) ps
      else Except.error ConstructErr.disjointness := rfl

lemma construct_ok_iff_validate (t n : Finset String)
    (ps : List (String × List String)) :
    construct t n ps = Except.ok (CFG.mk t n ps) ↔
      (CFG.mk t n ps).validate = Except.ok () := by
  unfold construct
  cases hv : (CFG.mk t n ps).validate with
  | ok u => cases u; simp
  | error e => simp

lemma construct_error_iff (t n : Finset String)
    (ps : List (String × List String)) (e : ConstructErr) :
    construct t n ps = Except.error e ↔
      (CFG.mk t n ps).validate = Except.error e := by
  unfold construct
  cases hv : (CFG.mk t n ps).validate with
  | ok u => simp
  | error e2 => simp

/-- Claim C1, counterexample: on the spec's own example grammar the
preconditions of `generate` hold with the `"weighted"` strategy, yet the
call raises (a `NameError`: only the `"uniform"` branch ever assigns
`sampled_output`). -/
theorem generate_weighted_raises :
    cfgSa.validate = Except.ok () ∧
    "S" ∈ cfgSa.nonterminal_symbols ∧
    (0 : Int) < 5 ∧
    cfgSa.generate "S" 5 "weighted" (fun _ => (0, 0)) =
      Except.error GenErr.nameErrorUnbound :=
  ⟨by decide, by decide, by decide, by decide⟩

/-- Claim C1 (amended): for a validly constructed grammar, `generate`
never raises — for any number of random steps and any random choices —
provided additionally that the sampling strategy is `"uniform"` and every
production's rhs is nonempty (with `"weighted"` the unbound
`sampled_output` raises as soon as a production list is nonempty, and an
empty rhs makes `np.random.choice` raise). -/
theorem generate_uniform_total (g : CFG) (hval : g.validate = Except.ok ())
    (s : String) (hs : s ∈ g.nonterminal_symbols) (n : Int) (hn : 0 < n)
    (hne : ∀ p ∈ g.productions, p.2 ≠ []) (o : Nat → Nat × Nat) :
    ∃ out, g.generate s n "uniform" o = Except.ok out := by
  unfold CFG.generate
  rw [if_neg (not_not_intro hs), if_neg (not_not_intro (Or.inl rfl)),
    if_neg (not_not_intro hn)]
  by_cases h1 : n = 1
  · rw [if_pos h1]; exact ⟨s, rfl⟩
  · rw [if_neg h1]
    exact genLoop_ok g hval hne o _ 0 s s (Finset.mem_union_right _ hs)

/-- Claim C1, witness: the amended totality theorem applied to the example
grammar. -/
theorem generate_uniform_total_witness :
    (cfgSa.validate = Except.ok () ∧ "S" ∈ cfgSa.nonterminal_symbols ∧
      (0 : Int) < 5 ∧ (∀ p ∈ cfgSa.productions, p.2 ≠ [])) ∧
    ∃ out, cfgSa.generate "S" 5 "uniform" (fun _ => (0, 0)) = Except.ok out :=
  ⟨⟨by decide, by decide, by decide, by decide⟩,
    generate_uniform_total cfgSa (by decide) "S" (by decide) 5 (by decide)
      (by decide) (fun _ => (0, 0))⟩

/-- Claim C2, counterexample: on the example grammar `is_valid_string "S a"`
is `false`, not `true`: the pair `("S", "a")` is compared by Python `==`
against the stored entry `("S", ["a"])`, and a string never equals a
list. -/
theorem is_valid_string_Sa_false :
    cfgSa.is_valid_string "S a" = false := by decide

/-- Claim C2 (amended): for the example grammar both `is_valid_string "S a"`
and `is_valid_string "S b"` return `false` — the former because the
adjacent-pair check compares a `(str, str)` pair with `(lhs, rhs-list)`
entries and so never succeeds, the latter because `"b"` is not a valid
symbol. -/
theorem is_valid_string_example_pairs :
    cfgSa.is_valid_string "S a" = false ∧
    cfgSa.is_valid_string "S b" = false := by decide

/-- Claim C3, counterexample: with a two-character terminal `"bb"` the
returned string is `"S b b"`, in which the visited symbol `"bb"` does not
appear as one token: the output is not the visited symbols' texts joined
by single spaces. -/
theorem generate_multichar_not_joined :
    cfgBB.validate = Except.ok () ∧
    cfgBB.generate "S" 5 "uniform" (fun _ => (0, 0)) = Except.ok "S b b" ∧
    cfgBB.generateVisited "S" 5 "uniform" (fun _ => (0, 0)) =
      Except.ok ["bb"] ∧
    "S b b" ≠ pyJoin " " ["S", "bb"] :=
  ⟨by decide, by decide, by decide, by decide⟩

/-- Claim C3 (amended): every `generate` call renders exactly the visited
symbols in visitation order, starting from the start symbol's text — but
each visited symbol after the first contributes its characters joined by
single spaces (`" ".join` over the symbol string) rather than its full
text as one token; for single-character symbols the two coincide. -/
theorem generate_renders_visited (g : CFG) (symbol : String) (n : Int)
    (strat : String) (o : Nat → Nat × Nat) :
    g.generate symbol n strat o =
      (g.generateVisited symbol n strat o).map (renderWalk symbol) := by
  unfold CFG.generate CFG.generateVisited
  by_cases h1 : symbol ∉ g.nonterminal_symbols
  · rw [if_pos h1, if_pos h1]; rfl
  · rw [if_neg h1, if_neg h1]
    by_cases h2 : ¬(strat = "uniform" ∨ strat = "weighted")
    · rw [if_pos h2, if_pos h2]; rfl
    · rw [if_neg h2, if_neg h2]
      by_cases h3 : ¬(0 < n)
      · rw [if_pos h3, if_pos h3]; rfl
      · rw [if_neg h3, if_neg h3]
        by_cases h4 : n = 1
        · rw [if_pos h4, if_pos h4]; rfl
        · rw [if_neg h4, if_neg h4]
          exact genLoop_eq_visited g strat o _ 0 symbol symbol

/-- Claim C4, counterexample: with the two-character terminal `"bb"` and
`maxLength = 2` the returned string `"S b b"` tokenizes to 3 tokens,
exceeding `maxLength`. -/
theorem generate_token_bound_fails_multichar :
    cfgBB.validate = Except.ok () ∧
    cfgBB.generate "S" 2 "uniform" (fun _ => (0, 0)) = Except.ok "S b b" ∧
    (pySplit "S b b").length = 3 ∧ ¬((pySplit "S b b").length ≤ 2) :=
  ⟨by decide, by decide, by decide, by decide⟩

/-- Claim C4 (amended): for a validly constructed grammar all of whose
symbols are single characters, every string `generate` returns has
whitespace-tokenized length at most `maxLength`. -/
theorem generate_token_bound_single_char (g : CFG)
    (hval : g.validate = Except.ok ())
    (hchar : ∀ s ∈ g.all_symbols, s.length = 1)
    (symbol : String) (n : Int) (strat : String) (o : Nat → Nat × Nat)
    (out : String) (hok : g.generate symbol n strat o = Except.ok out) :
    ((pySplit out).length : Int) ≤ n := by
  unfold CFG.generate at hok
  by_cases h1 : symbol ∉ g.nonterminal_symbols
  · rw [if_pos h1] at hok; exact absurd hok (by simp)
  · rw [if_neg h1] at hok
    push_neg at h1
    by_cases h2 : ¬(strat = "uniform" ∨ strat = "weighted")
    · rw [if_pos h2] at hok; exact absurd hok (by simp)
    · rw [if_neg h2] at hok
      by_cases h3 : ¬(0 < n)
      · rw [if_pos h3] at hok; exact absurd hok (by simp)
      · rw [if_neg h3] at hok
        push_neg at h3
        have hsym1 : symbol.length = 1 := hchar _ (Finset.mem_union_right _ h1)
        have hsymtok : (pySplit symbol).length ≤ 1 :=
          pySplit_single_le_one _ hsym1
        by_cases h4 : n = 1
        · rw [if_pos h4] at hok
          injection hok with hok
          rw [← hok]
          omega
        · rw [if_neg h4] at hok
          have hb := genLoop_tokens g hval hchar strat o (n - 1).toNat 0
            symbol symbol out hok
          have h5 : ((n - 1).toNat : Int) = n - 1 :=
            Int.toNat_of_nonneg (by omega)
          omega

/-- Claim C4, witness: the amended bound applied to the example grammar. -/
theorem generate_token_bound_single_char_witness :
    (cfgSa.validate = Except.ok () ∧
      (∀ s ∈ cfgSa.all_symbols, s.length = 1) ∧
      cfgSa.generate "S" 5 "uniform" (fun _ => (0, 0)) = Except.ok "S a") ∧
    ((pySplit "S a").length : Int) ≤ 5 :=
  ⟨⟨by decide, by decide, by decide⟩,
    generate_token_bound_single_char cfgSa (by decide) (by decide) "S" 5
      "uniform" (fun _ => (0, 0)) "S a" (by decide)⟩

/-- Claim C5: Python equality of grammars is exactly equality of the
(terminals, nonterminals, productions) triple, with production order
significant; but hashing a constructed grammar never succeeds, because
`__hash__` hashes a tuple whose components are two `set`s and a `list`,
all unhashable — `hash(g)` raises `TypeError` on every grammar, here
evaluated on the example grammar. -/
theorem cfg_eq_triple_and_hash_raises :
    (∀ g h : CFG, g.pyEq h = true ↔
      (g.terminal_symbols = h.terminal_symbols ∧
       g.nonterminal_symbols = h.nonterminal_symbols ∧
       g.productions = h.productions)) ∧
    CFG.pyHash cfgSa = Except.error PyHashErr.unhashableType := by
  constructor
  · intro g h
    unfold CFG.pyEq
    simp [Bool.and_eq_true, and_assoc]
  · decide

/-- Claim C6, counterexample: with overlapping symbol sets and a production
whose lhs is not a nonterminal, construction fails with the disjointness
error, not with the invalid-lhs error the claim also demands. -/
theorem construct_overlap_bad_lhs_disjointness :
    ("y" : String) ∉ ({"x"} : Finset String) ∧
    construct {"x"} {"x"} [("y", [])] =
      Except.error ConstructErr.disjointness ∧
    construct {"x"} {"x"} [("y", [])] ≠
      Except.error ConstructErr.invalidLhs :=
  ⟨by decide, by decide, by decide⟩

/-- Claim C6 (amended): construction succeeds exactly when the three
invariants hold, and then exposes the inputs with
`allSymbols = terminals ∪ nonterminals`; on failure the error reports the
first violated check in validation order — disjointness first, then each
production in order, its lhs before its rhs symbols. -/
theorem construct_characterization (t n : Finset String)
    (ps : List (String × List String)) :
    (construct t n ps = Except.ok (CFG.mk t n ps) ↔
      (t ∩ n = ∅ ∧ ∀ p ∈ ps, ProdOk n (t ∪ n) p)) ∧
    (∀ g : CFG, construct t n ps = Except.ok g →
      g.terminal_symbols = t ∧ g.nonterminal_symbols = n ∧
      g.productions = ps ∧ g.all_symbols = t ∪ n) ∧
    (construct t n ps = Except.error ConstructErr.disjointness ↔
      t ∩ n ≠ ∅) ∧
    (construct t n ps = Except.error ConstructErr.invalidLhs ↔
      (t ∩ n = ∅ ∧ ∃ l1 p l2, ps = l1 ++ p :: l2 ∧
        (∀ q ∈ l1, ProdOk n (t ∪ n) q) ∧ p.1 ∉ n)) ∧
    (construct t n ps = Except.error ConstructErr.invalidRhsSymbol ↔
      (t ∩ n = ∅ ∧ ∃ l1 p l2, ps = l1 ++ p :: l2 ∧
        (∀ q ∈ l1, ProdOk n (t ∪ n) q) ∧ p.1 ∈ n ∧
        ∃ s ∈ p.2, s ∉ t ∪ n)) := by
  refine ⟨?_, ?_, ?_, ?_, ?_⟩
  · rw [construct_ok_iff_validate, validate_mk]
    by_cases hc : (t ∩ n).card = 0
    · rw [if_pos hc, validateProductions_ok_iff]
      simp [Finset.card_eq_zero.mp hc]
    · rw [if_neg hc]
      constructor
      · intro h; exact absurd h (by simp)
      · rintro ⟨hd, -⟩; exact absurd (by rw [hd]; exact Finset.card_empty) hc
  · intro g hg
    cases hv : (CFG.mk t n ps).validate with
    | ok u =>
      have hok : construct t n ps = Except.ok (CFG.mk t n ps) := by
        unfold construct; rw [hv]
      rw [hok] at hg
      injection hg with hg
      rw [← hg]
      exact ⟨rfl, rfl, rfl, rfl⟩
    | error e =>
      have herr : construct t n ps = Except.error e := by
        unfold construct; rw [hv]
      rw [herr] at hg
      exact absurd hg (by simp)
  · rw [construct_error_iff, validate_mk]
    by_cases hc : (t ∩ n).card = 0
    · rw [if_pos hc]
      constructor
      · intro h; exact absurd h (validateProductions_ne_disjointness _ _ _)
      · intro h; exact absurd (Finset.card_eq_zero.mp hc) h
    · rw [if_neg hc]
      constructor
      · intro _ he; exact hc (by rw [he]; exact Finset.card_empty)
      · intro _; rfl
  · rw [construct_error_iff, validate_mk]
    by_cases hc : (t ∩ n).card = 0
    · rw [if_pos hc, validateProductions_errLhs_iff]
      simp [Finset.card_eq_zero.mp hc]
    · rw [if_neg hc]
      constructor
      · intro h; exact absurd h (by simp)
      · rintro ⟨hd, -⟩; exact absurd (by rw [hd]; exact Finset.card_empty) hc
  · rw [construct_error_iff, validate_mk]
    by_cases hc : (t ∩ n).card = 0
    · rw [if_pos hc, validateProductions_errRhs_iff]
      simp [Finset.card_eq_zero.mp hc]
    · rw [if_neg hc]
      constructor
      · intro h; exact absurd h (by simp)
      · rintro ⟨hd, -⟩; exact absurd (by rw [hd]; exact Finset.card_empty) hc

/-- Claim C7: the two example runs of the spec — `generate("S", 5)` on the
one-production grammar returns `"S a"`, and on the production-less grammar
returns `"S"`, whatever the random draws. -/
theorem generate_example_runs (o : Nat → Nat × Nat) :
    cfgSa.generate "S" 5 "uniform" o = Except.ok "S a" ∧
    cfgEmpty.generate "S" 5 "uniform" o = Except.ok "S" := by
  constructor
  · unfold CFG.generate
    rw [if_neg (not_not_intro (by decide : "S" ∈ cfgSa.nonterminal_symbols)),
      if_neg (not_not_intro (Or.inl rfl)),
      if_neg (not_not_intro (by decide : (0 : Int) < 5)),
      if_neg (by decide : ¬(5 : Int) = 1),
      (by decide : ((5 : Int) - 1).toNat = 3 + 1), genLoop_succ,
      if_neg (not_not_intro (by decide : "S" ∈ cfgSa.all_symbols)),
      if_neg (by decide : ¬(cfgSa.prodsFor "S").length = 0), if_pos rfl]
    have hpick : pickProd (cfgSa.prodsFor "S") (o 0).1 = ("S", ["a"]) := by
      unfold pickProd
      rw [(by decide : (cfgSa.prodsFor "S").length = 1), Nat.mod_one]
      decide
    have hsamp : sampleStep (cfgSa.prodsFor "S") (o 0) = "a" := by
      unfold sampleStep pickSym
      rw [hpick,
        (by decide : (("S", ["a"]) : String × List String).2.length = 1),
        Nat.mod_one]
      decide
    rw [hpick,
      if_neg (by decide : ¬(("S", ["a"]) : String × List String).2.length = 0),
      hsamp, if_pos (by decide : ("a" : String) ∈ cfgSa.terminal_symbols)]
    decide
  · unfold CFG.generate
    rw [if_neg (not_not_intro (by decide : "S" ∈ cfgEmpty.nonterminal_symbols)),
      if_neg (not_not_intro (Or.inl rfl)),
      if_neg (not_not_intro (by decide : (0 : Int) < 5)),
      if_neg (by decide : ¬(5 : Int) = 1),
      (by decide : ((5 : Int) - 1).toNat = 3 + 1), genLoop_succ,
      if_neg (not_not_intro (by decide : "S" ∈ cfgEmpty.all_symbols)),
      if_pos (by decide : (cfgEmpty.prodsFor "S").length = 0)]

/-- Claim C8: `productionsFor` raises the unknown-symbol error exactly for
symbols outside `allSymbols`; for known symbols it never raises and
returns the stable filter of the productions whose lhs is the symbol (a
sublist of the original sequence containing exactly those productions);
for a terminal symbol of a validly constructed grammar the result is the
empty list, not an error. -/
theorem get_productions_spec (g : CFG) (symbol : String) :
    (g.get_productions_for_symbol symbol =
        Except.error LookupErr.unknownSymbol ↔ symbol ∉ g.all_symbols) ∧
    (symbol ∈ g.all_symbols →
      g.get_productions_for_symbol symbol = Except.ok (g.prodsFor symbol) ∧
      (g.prodsFor symbol).Sublist g.productions ∧
      (∀ p, p ∈ g.prodsFor symbol ↔ p ∈ g.productions ∧ p.1 = symbol)) ∧
    (g.validate = Except.ok () → symbol ∈ g.terminal_symbols →
      g.get_productions_for_symbol symbol = Except.ok []) := by
  refine ⟨?_, ?_, ?_⟩
  · unfold CFG.get_productions_for_symbol
    by_cases h : symbol ∈ g.all_symbols
    · rw [if_pos h]; simp [h]
    · rw [if_neg h]; simp [h]
  · intro h
    unfold CFG.get_productions_for_symbol
    rw [if_pos h]
    refine ⟨rfl, List.filter_sublist _, ?_⟩
    intro p
    unfold CFG.prodsFor
    rw [List.mem_filter]
    simp
  · intro hval hterm
    unfold CFG.get_productions_for_symbol
    rw [if_pos (show symbol ∈ g.all_symbols from Finset.mem_union_left _ hterm)]
    have hnil : g.prodsFor symbol = [] := by
      unfold CFG.prodsFor
      rw [List.filter_eq_nil_iff]
      intro p hp
      have h1 := (((validate_ok_iff g).mp hval).2 p hp).1
      have hdis := ((validate_ok_iff g).mp hval).1
      simp only [beq_iff_eq]
      intro he
      rw [he] at h1
      have hmem : symbol ∈ g.terminal_symbols ∩ g.nonterminal_symbols :=
        Finset.mem_inter.mpr ⟨hterm, h1⟩
      rw [hdis] at hmem
      exact absurd hmem (Finset.not_mem_empty _)
    rw [hnil]

/-- Claim C8, witness: on the example grammar the terminal `"a"` has no
rules and the lookup returns the empty list. -/
theorem get_productions_spec_witness :
    (cfgSa.validate = Except.ok () ∧ "a" ∈ cfgSa.terminal_symbols) ∧
    cfgSa.get_productions_for_symbol "a" = Except.ok [] :=
  ⟨⟨by decide, by decide⟩,
    (get_productions_spec cfgSa "a").2.2 (by decide) (by decide)⟩

/-- Claim C9: for a validly constructed grammar and a nonterminal start
symbol, `generate` with `maxLength = 1` returns exactly the start symbol,
for every random oracle (no expansion, no random choice). -/
theorem generate_maxlength_one (g : CFG) (hval : g.validate = Except.ok ())
    (symbol : String) (hs : symbol ∈ g.nonterminal_symbols)
    (o : Nat → Nat × Nat) :
    g.generate symbol 1 "uniform" o = Except.ok symbol := by
  unfold CFG.generate
  rw [if_neg (not_not_intro hs), if_neg (not_not_intro (Or.inl rfl)),
    if_neg (not_not_intro (by decide : (0 : Int) < 1)), if_pos rfl]

/-- Claim C9, witness: the degenerate case on the example grammar. -/
theorem generate_maxlength_one_witness :
    (cfgSa.validate = Except.ok () ∧ "S" ∈ cfgSa.nonterminal_symbols) ∧
    cfgSa.generate "S" 1 "uniform" (fun _ => (0, 0)) = Except.ok "S" :=
  ⟨⟨by decide, by decide⟩,
    generate_maxlength_one cfgSa (by decide) "S" (by decide) (fun _ => (0, 0))⟩

/-- Claim C10: on every validly constructed grammar, `is_valid_production`
is `false` on every pair of single symbols — a `(str, str)` pair never
equals a stored `(lhs, rhs-list)` entry under Python `==` — and therefore
`is_valid_string` rejects every string of two or more tokens. -/
theorem valid_production_always_false (g : CFG)
    (hval : g.validate = Except.ok ()) :
    (∀ x y : String, g.is_valid_production (x, y) = false) ∧
    (∀ s : String, 2 ≤ (pySplit s).length → g.is_valid_string s = false) := by
  have hp : ∀ x y : String, g.is_valid_production (x, y) = false := by
    intro x y
    unfold CFG.is_valid_production pyStrEqList
    simp
  refine ⟨hp, ?_⟩
  intro s hs
  unfold CFG.is_valid_string
  have h0 : (0 : Nat) ∈ List.range ((pySplit s).length - 1) := by
    rw [List.mem_range]; omega
  have hfail : ((List.range ((pySplit s).length - 1)).all
      (fun i => g.is_valid_production
        ((pySplit s).getD i "", (pySplit s).getD (i + 1) ""))) = false := by
    rw [List.all_eq_false]
    exact ⟨0, h0, by rw [hp]; simp⟩
  rw [hfail, Bool.and_false]

/-- Claim C10, witness: the always-false production check and the rejection
of the two-token string `"S a"` on the example grammar. -/
theorem valid_production_always_false_witness :
    (cfgSa.validate = Except.ok () ∧ 2 ≤ (pySplit "S a").length) ∧
    cfgSa.is_valid_production ("S", "a") = false ∧
    cfgSa.is_valid_string "S a" = false :=
  ⟨⟨by decide, by decide⟩,
    (valid_production_always_false cfgSa (by decide)).1 "S" "a",
    (valid_production_always_false cfgSa (by decide)).2 "S a" (by decide)⟩
